import Mathlib

/-!
# IXWebSocket: the HTTP handshake codec (`ixwebsocket/IXHttp.cpp`)

A shallow embedding of `Http::trim`, `Http::parseRequestLine`,
`Http::parseRequest` and `Http::sendResponse`, and of the `WebSocketCloseInfo`
struct and the `ReadyState` enum of `ixwebsocket/IXWebSocket.h`, followed by
the properties proved about them.

Conventions of the embedding:

* a `std::string` is a `List Char`; every `Char` stands for one `char` (byte),
  so `List.length` is `std::string::size()`;
* the socket is an abstract state `σ` with two operations, `readLine` and
  `writeBytes`; the header parser `parseHttpHeaders` lives in another
  translation unit and is taken as a parameter acting on the same socket;
* every call made on the socket is appended to a trace, so that statements
  about which calls are issued, and in which order, can be made.
-/

namespace ix

/-- A `std::string`: a sequence of `char`s. -/
abbrev Str := List Char

/-! ## `Http::trim` -/

/-- The erase-remove idiom `out.erase(std::remove(out.begin(), out.end(), c), out.end())`:
walks the string front to back, drops the characters equal to `c` and keeps
the other ones in their order. -/
def eraseRemove (c : Char) : Str → Str
  | [] => []
  | x :: xs => if x = c then eraseRemove c xs else x :: eraseRemove c xs

/-- The function `Http::trim` (IXHttp.cpp l.16-23): three erase-remove passes over a copy
of the argument, for `' '`, then `'\r'`, then `'\n'`. -/
def Http.trim (str : Str) : Str :=
  let out := str
  let out := eraseRemove ' ' out
  let out := eraseRemove '\r' out
  let out := eraseRemove '\n' out
  out

/-! ## `Http::parseRequestLine` -/

/-- Read side of a `std::stringstream`: the characters not yet extracted and
the two state bits `std::getline` reads and sets. -/
structure IStream where
  unread : Str
  eofbit : Bool
  failbit : Bool
deriving DecidableEq, Repr

/-- The extraction loop inside `std::getline(is, str, delim)`: characters are
moved from the stream to the string until the delimiter is met (it is
extracted and not stored; the characters after it are returned as `some rest`)
or the end of the buffer is reached (`none`). -/
def extractUntil (delim : Char) : Str → Str × Option Str
  | [] => ([], none)
  | c :: cs =>
    if c = delim then ([], some cs)
    else ((c :: (extractUntil delim cs).1), (extractUntil delim cs).2)

/-- The call `std::getline(is, token, delim)`. When the stream is not good the sentry
fails: failbit is set and `token` is left as it was. Otherwise `token` is
erased and filled up to the delimiter or the end of the buffer; reaching the
end sets eofbit, and failbit is set when no character at all was extracted
(the delimiter counts as an extracted character). -/
def getline (is : IStream) (token : Str) (delim : Char) : IStream × Str :=
  if is.eofbit || is.failbit then
    ({ is with failbit := true }, token)
  else
    match extractUntil delim is.unread with
    | (tok, some rest) => ({ unread := rest, eofbit := false, failbit := false }, tok)
    | (tok, none) => ({ unread := [], eofbit := true, failbit := tok.isEmpty }, tok)

/-- The loop `while (std::getline(tokenStream, token, ' ')) tokens.push_back(token);`
(IXHttp.cpp l.33-36). The first argument bounds the number of iterations. -/
def splitLoop : Nat → IStream → Str → List Str → List Str
  | 0, _, _, tokens => tokens
  | fuel + 1, tokenStream, token, tokens =>
    let r := getline tokenStream token ' '
    if r.1.failbit then tokens
    else splitLoop fuel r.1 r.2 (tokens ++ [r.2])

/-- The function `Http::parseRequestLine` (IXHttp.cpp l.25-57). The loop is run with
`line.size() + 2` iterations at its disposal, which it never uses up
(`splitLoop_eq`). -/
def Http.parseRequestLine (line : Str) : Str × Str × Str :=
  let token : Str := []
  let tokenStream : IStream := { unread := line, eofbit := false, failbit := false }
  let tokens : List Str := []
  let tokens := splitLoop (line.length + 2) tokenStream token tokens
  let method : Str := if h : tokens.length ≥ 1 then Http.trim tokens[0] else []
  let requestUri : Str := if h : tokens.length ≥ 2 then Http.trim tokens[1] else []
  let httpVersion : Str := if h : tokens.length ≥ 3 then Http.trim tokens[2] else []
  (method, requestUri, httpVersion)

/-! ## The socket and `Http::parseRequest` -/

/-- Modelled from the spec: the `HttpRequest` value `{uri, method, httpVersion,
headers}`, declared in `IXHttp.h`, built by its constructor from the four
arguments in this order. `H` is the type of the header map. -/
structure HttpRequest (H : Type) where
  uri : Str
  method : Str
  httpVersion : Str
  headers : H
deriving DecidableEq, Repr

/-- Modelled from the spec: the `HttpResponse` value `{statusCode, description,
headers(optional), payload}`, declared in `IXHttp.h`; `statusCode` is a C++
`int`. -/
structure HttpResponse (H : Type) where
  statusCode : Int
  description : Str
  headers : Option H
  payload : Str
deriving DecidableEq, Repr

/-- The collaborators of the codec, over a socket state `σ`:
`socket->readLine(isCancellationRequested)` returning `(ok, line)`,
`socket->writeBytes(data, nullptr)` returning `ok`, and
`parseHttpHeaders(socket, isCancellationRequested)` returning
`(ok, headers)`. The cancellation predicate (a five seconds deadline) is part
of what decides the outcome of a read and is absorbed in these functions. -/
structure Env (σ H : Type) where
  readLine : σ → (Bool × Str) × σ
  writeBytes : Str → σ → Bool × σ
  parseHttpHeaders : σ → (Bool × H) × σ

/-- A call made on the socket. -/
inductive Event where
  | readLine : Event
  | parseHttpHeaders : Event
  | writeBytes : Str → Event
deriving DecidableEq, Repr

/-- The socket together with the calls made on it so far, oldest first. -/
structure Conn (σ : Type) where
  sock : σ
  trace : List Event
deriving DecidableEq

/-- Traced `socket->readLine(isCancellationRequested)`. -/
def Conn.readLine {σ H : Type} (env : Env σ H) (c : Conn σ) : (Bool × Str) × Conn σ :=
  ((env.readLine c.sock).1,
   { sock := (env.readLine c.sock).2, trace := c.trace ++ [Event.readLine] })

/-- Traced `parseHttpHeaders(socket, isCancellationRequested)`. -/
def Conn.parseHttpHeaders {σ H : Type} (env : Env σ H) (c : Conn σ) : (Bool × H) × Conn σ :=
  ((env.parseHttpHeaders c.sock).1,
   { sock := (env.parseHttpHeaders c.sock).2, trace := c.trace ++ [Event.parseHttpHeaders] })

/-- Traced `socket->writeBytes(data, nullptr)`. -/
def Conn.writeBytes {σ H : Type} (env : Env σ H) (data : Str) (c : Conn σ) : Bool × Conn σ :=
  ((env.writeBytes data c.sock).1,
   { sock := (env.writeBytes data c.sock).2, trace := c.trace ++ [Event.writeBytes data] })

/-- The function `Http::parseRequest` (IXHttp.cpp l.59-98). The result is the returned
tuple `(ok, errorMessage, request)`, an unset `HttpRequestPtr` being `none`,
and the socket after the call. -/
def Http.parseRequest {σ H : Type} (env : Env σ H) (socket : Conn σ) :
    (Bool × Str × Option (HttpRequest H)) × Conn σ :=
  let httpRequest : Option (HttpRequest H) := none
  -- Read first line
  let lineResult := Conn.readLine env socket
  let socket := lineResult.2
  let lineValid := lineResult.1.1
  let line := lineResult.1.2
  if !lineValid then
    ((false, "Error reading HTTP request line".toList, httpRequest), socket)
  else
    -- Parse request line
    let requestLine := Http.parseRequestLine line
    let method := requestLine.1
    let uri := requestLine.2.1
    let httpVersion := requestLine.2.2
    -- Retrieve and validate HTTP headers
    let result := Conn.parseHttpHeaders env socket
    let socket := result.2
    let headersValid := result.1.1
    let headers := result.1.2
    if !headersValid then
      ((false, "Error parsing HTTP headers".toList, httpRequest), socket)
    else
      let httpRequest := some (HttpRequest.mk uri method httpVersion headers)
      ((true, [], httpRequest), socket)

/-! ## `Http::sendResponse` -/

/-- The insertion `ss << n` for an unsigned integer: its decimal digits. -/
def decimalNat (n : Nat) : Str := Nat.toDigits 10 n

/-- The insertion `ss << i` for an `int`: a minus sign for a negative value, then the
decimal digits of the magnitude. -/
def decimalInt : Int → Str
  | Int.ofNat n => decimalNat n
  | Int.negSucc n => '-' :: decimalNat (n + 1)

/-- The function `Http::sendResponse` (IXHttp.cpp l.101-127). The result is the returned
flag and the socket after the call. -/
def Http.sendResponse {σ H : Type} (env : Env σ H) (response : HttpResponse H)
    (socket : Conn σ) : Bool × Conn σ :=
  let ss : Str := []
  let ss := ss ++ "HTTP/1.1 ".toList
  let ss := ss ++ decimalInt response.statusCode
  let ss := ss ++ " ".toList
  let ss := ss ++ response.description
  let ss := ss ++ "\r\n".toList
  let w1 := Conn.writeBytes env ss socket
  if !w1.1 then (false, w1.2)
  else
    -- Write headers
    let ss : Str := []
    let ss := ss ++ "Content-Length: ".toList ++ decimalNat response.payload.length ++ "\r\n".toList
    let ss := ss ++ "\r\n".toList
    let w2 := Conn.writeBytes env ss w1.2
    if !w2.1 then (false, w2.2)
    else Conn.writeBytes env response.payload w2.2

/-- The arguments of the `writeBytes` calls of a trace, in call order. -/
def written : List Event → List Str
  | [] => []
  | Event.writeBytes data :: es => data :: written es
  | _ :: es => written es

/-! ## Definitions used in the proofs and in the examples -/

/-- The tokens of a line, by structural recursion: the pieces between spaces,
without the empty piece that follows a final space (or makes up the empty
line). Used to reason about `splitLoop`. -/
def splitOnSpace : Str → List Str
  | [] => []
  | c :: cs =>
    if c = ' ' then [] :: splitOnSpace cs
    else
      match splitOnSpace cs with
      | [] => [[c]]
      | t :: ts => (c :: t) :: ts

/-- A socket for the examples: its state counts the `writeBytes` calls made;
the outcome of a read, of the header parse and of the `k`-th write (counted
from zero) are fixed in advance. -/
def scriptedEnv (lineOk : Bool) (line : Str) (headersOk : Bool) (writeOk : Nat → Bool) :
    Env Nat Unit where
  readLine := fun s => ((lineOk, line), s)
  writeBytes := fun _ s => (writeOk s, s + 1)
  parseHttpHeaders := fun s => ((headersOk, ()), s)

/-- The vector `tokens` of `Http::parseRequestLine` when its loop has ended
(IXHttp.cpp l.28-36); its length is `tokens.size()`. -/
def Http.requestLineTokens (line : Str) : List Str :=
  splitLoop (line.length + 2) { unread := line, eofbit := false, failbit := false } [] []

/-- The line with every `'\r'` and `'\n'` taken out. -/
def stripCRLF (line : Str) : Str :=
  line.filter (fun c => decide (c ≠ '\r' ∧ c ≠ '\n'))

/-! ## `WebSocketCloseInfo` and `ReadyState` (`ixwebsocket/IXWebSocket.h`) -/

/-- The struct `WebSocketCloseInfo` (IXWebSocket.h l.44-56): `uint16_t code` and
`std::string reason`. -/
structure WebSocketCloseInfo where
  code : Nat
  reason : Str
deriving DecidableEq, Repr

/-- The constructor `WebSocketCloseInfo(uint64_t c, const std::string& r)` with its
member initialisers `code(c)`, `reason(r)`: the 64-bit argument is converted to
`uint16_t`, which keeps it modulo `2^16`. -/
def WebSocketCloseInfo.construct (c : Nat) (r : Str) : WebSocketCloseInfo :=
  { code := c % 2 ^ 16, reason := r }

/-- The constructor called without arguments: the defaults are `c = 0` and
`r = std::string()`. -/
def WebSocketCloseInfo.constructDefault : WebSocketCloseInfo :=
  WebSocketCloseInfo.construct 0 []

/-- The enum `ReadyState` (IXWebSocket.h l.26-32). -/
inductive ReadyState where
  | WebSocket_ReadyState_Connecting : ReadyState
  | WebSocket_ReadyState_Open : ReadyState
  | WebSocket_ReadyState_Closing : ReadyState
  | WebSocket_ReadyState_Closed : ReadyState
deriving DecidableEq, Repr

/-- The enumerator values of `ReadyState`: 0, 1, 2, 3. -/
def ReadyState.toNat : ReadyState → Nat
  | ReadyState.WebSocket_ReadyState_Connecting => 0
  | ReadyState.WebSocket_ReadyState_Open => 1
  | ReadyState.WebSocket_ReadyState_Closing => 2
  | ReadyState.WebSocket_ReadyState_Closed => 3

/-- Modelled from the spec: the changes of the ready state made by the worker
of the endpoint (`WebSocket::run`, `connect`, `close`, `stop`, whose bodies are
in `IXWebSocket.cpp`; only their declarations are in `IXWebSocket.h`). The
spec lists, in its section 4.3: (1) `Connecting → Open` when the handshake
succeeds, and on a failure at this stage no passage through `Open` but the
reconnect decision, which ends in `Closed` when the worker does not retry;
(2) `Open → Closing` on a close started by the caller or by the peer;
(3) `Closing → Closed` when the socket is torn down; (4) `Closed → Connecting`
on a reconnect, which starts a new connection attempt. -/
def ReadyState.transition : ReadyState → ReadyState → Bool
  | ReadyState.WebSocket_ReadyState_Connecting, ReadyState.WebSocket_ReadyState_Open => true
  | ReadyState.WebSocket_ReadyState_Connecting, ReadyState.WebSocket_ReadyState_Closed => true
  | ReadyState.WebSocket_ReadyState_Open, ReadyState.WebSocket_ReadyState_Closing => true
  | ReadyState.WebSocket_ReadyState_Closing, ReadyState.WebSocket_ReadyState_Closed => true
  | ReadyState.WebSocket_ReadyState_Closed, ReadyState.WebSocket_ReadyState_Connecting => true
  | _, _ => false

/-- Modelled from the spec: an execution of the endpoint, as the sequence of
the values `getReadyState()` goes through (its body is in `IXWebSocket.cpp`):
each value follows the one before it by one of the transitions. -/
def ReadyState.isExecution : List ReadyState → Bool
  | [] => true
  | [_] => true
  | a :: b :: rest => ReadyState.transition a b && ReadyState.isExecution (b :: rest)

/-! ## Auxiliary facts -/

theorem splitOnSpace_cons_ne (c : Char) (cs : Str) (hc : c ≠ ' ') :
    splitOnSpace (c :: cs) =
      match splitOnSpace cs with
      | [] => [[c]]
      | t :: ts => (c :: t) :: ts := by
  simp [splitOnSpace, hc]

theorem eraseRemove_eq_filter (c : Char) (s : Str) :
    eraseRemove c s = s.filter (fun x => decide (x ≠ c)) := by
  induction s with
  | nil => rfl
  | cons x xs ih =>
    by_cases hx : x = c
    · simp [eraseRemove, hx, ih]
    · simp [eraseRemove, hx, ih]

theorem trim_eq_filter (s : Str) :
    Http.trim s = s.filter (fun c => decide (c ≠ ' ' ∧ c ≠ '\r' ∧ c ≠ '\n')) := by
  simp only [Http.trim, eraseRemove_eq_filter, List.filter_filter]
  congr 1
  funext c
  by_cases h1 : c = ' ' <;> by_cases h2 : c = '\r' <;> by_cases h3 : c = '\n' <;> simp [h1, h2, h3]

theorem trim_append (a b : Str) : Http.trim (a ++ b) = Http.trim a ++ Http.trim b := by
  simp [trim_eq_filter]

theorem trim_nil : Http.trim [] = [] := rfl

theorem trim_of_clean (s : Str) (h : ∀ c ∈ s, c ≠ ' ' ∧ c ≠ '\r' ∧ c ≠ '\n') :
    Http.trim s = s := by
  rw [trim_eq_filter, List.filter_eq_self]
  intro c hc
  simpa using h c hc

theorem extractUntil_some (s t rest : Str) (h : extractUntil ' ' s = (t, some rest)) :
    splitOnSpace s = t :: splitOnSpace rest := by
  induction s generalizing t with
  | nil => simp [extractUntil] at h
  | cons c cs ih =>
    by_cases hc : c = ' '
    · simp [extractUntil, hc] at h
      obtain ⟨rfl, rfl⟩ := h
      simp [splitOnSpace, hc]
    · simp only [extractUntil, hc, if_false, Prod.mk.injEq] at h
      obtain ⟨rfl, h2⟩ := h
      have := ih (extractUntil ' ' cs).1 (Prod.ext rfl h2)
      simp [splitOnSpace, hc, this]

theorem extractUntil_none (s : Str) (h : (extractUntil ' ' s).2 = none) :
    (extractUntil ' ' s).1 = s ∧ (s ≠ [] → splitOnSpace s = [s]) := by
  induction s with
  | nil => simp [extractUntil]
  | cons c cs ih =>
    by_cases hc : c = ' '
    · simp [extractUntil, hc] at h
    · simp only [extractUntil, hc, if_false] at h
      obtain ⟨h1, h2⟩ := ih h
      refine ⟨by simp [extractUntil, hc, h1], fun _ => ?_⟩
      cases cs with
      | nil => simp [splitOnSpace, hc]
      | cons d ds => rw [splitOnSpace_cons_ne c _ hc, h2 (by simp)]

/-- The iteration bound of `Http::parseRequestLine` is never reached: with at
least `size + 2` iterations allowed the loop stops on a failed `getline`, and
what it has pushed are the tokens of the line. -/
theorem splitLoop_eq (n : Nat) (s token : Str) (tokens : List Str) (hn : s.length + 2 ≤ n) :
    splitLoop n { unread := s, eofbit := false, failbit := false } token tokens
      = tokens ++ splitOnSpace s := by
  induction n generalizing s token tokens with
  | zero => omega
  | succ n ih =>
    rcases hx : extractUntil ' ' s with ⟨t, _ | rest⟩
    · -- end of the buffer reached
      have hnone := extractUntil_none s (by rw [hx])
      rw [hx] at hnone
      obtain ⟨ht, hs⟩ := hnone
      simp only at ht
      subst ht
      cases t with
      | nil => simp [splitLoop, getline, hx, splitOnSpace]
      | cons c cs =>
        obtain ⟨m, rfl⟩ : ∃ m, n = m + 1 := ⟨n - 1, by simp at hn; omega⟩
        simp [splitLoop, getline, hx, hs]
    · -- delimiter found
      have hsome := extractUntil_some s t rest hx
      have hlen : rest.length < s.length := by
        have : ∀ (s t rest : Str), extractUntil ' ' s = (t, some rest) → rest.length < s.length := by
          intro s
          induction s with
          | nil => intro t rest h; simp [extractUntil] at h
          | cons c cs ih2 =>
            intro t rest h
            by_cases hc : c = ' '
            · simp [extractUntil, hc] at h
              simp [h.2]
            · simp only [extractUntil, hc, if_false, Prod.mk.injEq] at h
              have := ih2 _ rest (Prod.ext rfl h.2)
              simp; omega
        exact this s t rest hx
      have := ih rest t (tokens ++ [t]) (by omega)
      simp [splitLoop, getline, hx, this, hsome]

theorem tokens_eq (line : Str) :
    splitLoop (line.length + 2) { unread := line, eofbit := false, failbit := false } [] []
      = splitOnSpace line := by
  simpa using splitLoop_eq (line.length + 2) line [] [] (Nat.le_refl _)

theorem splitOnSpace_append_space (m rest : Str) (hm : ' ' ∉ m) :
    splitOnSpace (m ++ ' ' :: rest) = m :: splitOnSpace rest := by
  induction m with
  | nil => simp [splitOnSpace]
  | cons c cs ih =>
    have hc : c ≠ ' ' := fun h => hm (by simp [h])
    have hcs : ' ' ∉ cs := fun h => hm (by simp [h])
    simp [splitOnSpace, hc, ih hcs]

theorem splitOnSpace_no_space (m : Str) (hm : ' ' ∉ m) (hne : m ≠ []) :
    splitOnSpace m = [m] := by
  induction m with
  | nil => exact absurd rfl hne
  | cons c cs ih =>
    have hc : c ≠ ' ' := fun h => hm (by simp [h])
    have hcs : ' ' ∉ cs := fun h => hm (by simp [h])
    cases cs with
    | nil => simp [splitOnSpace, hc]
    | cons d ds => rw [splitOnSpace_cons_ne c _ hc, ih hcs (by simp)]

theorem trim_getD (l : List Str) (k : Nat) :
    (if h : l.length ≥ k + 1 then Http.trim (l.get ⟨k, h⟩) else []) = Http.trim (l.getD k []) := by
  by_cases h : l.length ≥ k + 1
  · have hk : k < l.length := h
    simp [h, List.getD, List.getElem?_eq_getElem hk]
  · have hk : l.length ≤ k := by omega
    simp [h, List.getD, List.getElem?_eq_none hk, trim_nil]

/-- The result of `Http::parseRequestLine` in terms of the tokens of the line. -/
theorem parseRequestLine_eq (line : Str) :
    Http.parseRequestLine line =
      (Http.trim ((splitOnSpace line).getD 0 []),
       Http.trim ((splitOnSpace line).getD 1 []),
       Http.trim ((splitOnSpace line).getD 2 [])) := by
  have h0 := trim_getD (splitOnSpace line) 0
  have h1 := trim_getD (splitOnSpace line) 1
  have h2 := trim_getD (splitOnSpace line) 2
  simp only [List.get_eq_getElem] at h0 h1 h2
  simp only [Http.parseRequestLine, tokens_eq]
  rw [← h0, ← h1, ← h2]

theorem splitOnSpace_length_le (s : Str) : (splitOnSpace s).length ≤ s.count ' ' + 1 := by
  induction s with
  | nil => simp [splitOnSpace]
  | cons c cs ih =>
    by_cases hc : c = ' '
    · subst hc
      simp [splitOnSpace]
      exact ih
    · rw [splitOnSpace_cons_ne c cs hc, List.count_cons_of_ne (Ne.symm hc)]
      cases hs : splitOnSpace cs with
      | nil => simp
      | cons t ts => rw [hs] at ih; simpa using ih

/-- What `Http::parseRequest` does when the request line cannot be read. -/
theorem parseRequest_of_invalid_line {σ H : Type} (env : Env σ H) (socket : Conn σ)
    (hread : (env.readLine socket.sock).1.1 = false) :
    Http.parseRequest env socket
      = ((false, "Error reading HTTP request line".toList, none),
         Conn.mk (env.readLine socket.sock).2 (socket.trace ++ [Event.readLine])) := by
  simp [Http.parseRequest, Conn.readLine, hread]

theorem requestLineTokens_eq (line : Str) : Http.requestLineTokens line = splitOnSpace line :=
  tokens_eq line

theorem token_space (cs : Str) (k : Nat) :
    (splitOnSpace (' ' :: cs)).getD 0 [] = []
    ∧ (splitOnSpace (' ' :: cs)).getD (k + 1) [] = (splitOnSpace cs).getD k [] := by
  simp [splitOnSpace]

theorem token_other (c : Char) (cs : Str) (k : Nat) (hc : c ≠ ' ') :
    (splitOnSpace (c :: cs)).getD 0 [] = c :: (splitOnSpace cs).getD 0 []
    ∧ (splitOnSpace (c :: cs)).getD (k + 1) [] = (splitOnSpace cs).getD (k + 1) [] := by
  rw [splitOnSpace_cons_ne c cs hc]
  cases splitOnSpace cs with
  | nil => simp
  | cons t ts => simp

theorem token_sublist (s : Str) (k : Nat) : ((splitOnSpace s).getD k []).Sublist s := by
  induction s generalizing k with
  | nil => simp [splitOnSpace]
  | cons c cs ih =>
    by_cases hc : c = ' '
    · subst hc
      cases k with
      | zero => rw [(token_space cs 0).1]; exact List.nil_sublist _
      | succ k => rw [(token_space cs k).2]; exact (ih k).trans (List.sublist_cons_self _ _)
    · cases k with
      | zero => rw [(token_other c cs 0 hc).1]; exact (ih 0).cons₂ c
      | succ k => rw [(token_other c cs k hc).2]; exact (ih (k + 1)).trans (List.sublist_cons_self _ _)

theorem token_no_space (s : Str) (k : Nat) : ' ' ∉ (splitOnSpace s).getD k [] := by
  induction s generalizing k with
  | nil => simp [splitOnSpace]
  | cons c cs ih =>
    by_cases hc : c = ' '
    · subst hc
      cases k with
      | zero => rw [(token_space cs 0).1]; simp
      | succ k => rw [(token_space cs k).2]; exact ih k
    · cases k with
      | zero =>
        rw [(token_other c cs 0 hc).1]
        intro h
        rcases List.mem_cons.1 h with h | h
        · exact hc h.symm
        · exact ih 0 h
      | succ k => rw [(token_other c cs k hc).2]; exact ih (k + 1)

theorem trim_cons (c : Char) (s : Str) : Http.trim (c :: s) = Http.trim [c] ++ Http.trim s :=
  trim_append [c] s

theorem token_stripCRLF (s : Str) (k : Nat) :
    Http.trim ((splitOnSpace (stripCRLF s)).getD k [])
      = Http.trim ((splitOnSpace s).getD k []) := by
  induction s generalizing k with
  | nil => rfl
  | cons c cs ih =>
    by_cases hc : c = ' '
    · subst hc
      have hs : stripCRLF (' ' :: cs) = ' ' :: stripCRLF cs := by
        simp [stripCRLF, List.filter_cons]
      rw [hs]
      cases k with
      | zero => rw [(token_space cs 0).1, (token_space (stripCRLF cs) 0).1]
      | succ k => rw [(token_space cs k).2, (token_space (stripCRLF cs) k).2, ih k]
    · by_cases hr : c = '\r' ∨ c = '\n'
      · have hs : stripCRLF (c :: cs) = stripCRLF cs := by
          rcases hr with h | h <;> subst h <;> simp [stripCRLF, List.filter_cons]
        have ht : Http.trim [c] = [] := by
          rcases hr with h | h <;> subst h <;> decide
        rw [hs]
        cases k with
        | zero => rw [(token_other c cs 0 hc).1, trim_cons, ht, List.nil_append, ih 0]
        | succ k => rw [(token_other c cs k hc).2, ih (k + 1)]
      · have hs : stripCRLF (c :: cs) = c :: stripCRLF cs := by
          have h1 : c ≠ '\r' := fun h => hr (Or.inl h)
          have h2 : c ≠ '\n' := fun h => hr (Or.inr h)
          simp [stripCRLF, List.filter_cons, h1, h2]
        rw [hs]
        cases k with
        | zero =>
          rw [(token_other c cs 0 hc).1, (token_other c (stripCRLF cs) 0 hc).1,
            trim_cons c ((splitOnSpace (stripCRLF cs)).getD 0 []),
            trim_cons c ((splitOnSpace cs).getD 0 []), ih 0]
        | succ k => rw [(token_other c cs k hc).2, (token_other c (stripCRLF cs) k hc).2, ih (k + 1)]

theorem trim_ne_nil_iff (t : Str) :
    Http.trim t ≠ [] ↔ ∃ c ∈ t, c ≠ ' ' ∧ c ≠ '\r' ∧ c ≠ '\n' := by
  rw [trim_eq_filter, Ne, List.filter_eq_nil_iff]
  simp

theorem mem_trim (t : Str) (c : Char) (h : c ∈ Http.trim t) :
    c ∈ t ∧ c ≠ ' ' ∧ c ≠ '\r' ∧ c ≠ '\n' := by
  rw [trim_eq_filter, List.mem_filter] at h
  simpa using h

theorem trim_sublist (t : Str) : (Http.trim t).Sublist t := by
  rw [trim_eq_filter]
  exact List.filter_sublist t

theorem field_nonempty_iff (s : Str) (k : Nat) :
    Http.trim ((splitOnSpace s).getD k []) ≠ []
      ↔ ∃ t, (splitOnSpace s)[k]? = some t ∧ ∃ c ∈ t, c ≠ '\r' ∧ c ≠ '\n' := by
  have hns := token_no_space s k
  rw [List.getD_eq_getElem?_getD] at hns ⊢
  cases h : (splitOnSpace s)[k]? with
  | none => simp [trim_nil]
  | some t =>
    rw [h] at hns
    simp only [Option.getD_some] at hns ⊢
    rw [trim_ne_nil_iff]
    constructor
    · rintro ⟨c, hc, _, h2, h3⟩
      exact ⟨t, rfl, c, hc, h2, h3⟩
    · rintro ⟨t2, ht, c, hc, h2, h3⟩
      cases ht
      exact ⟨c, hc, fun hsp => hns (hsp ▸ hc), h2, h3⟩

theorem getElem?_some_length {α : Type} (l : List α) (k : Nat) (t : α) (h : l[k]? = some t) :
    k + 1 ≤ l.length := by
  by_contra hlt
  have : l[k]? = none := List.getElem?_eq_none (by omega)
  rw [this] at h
  cases h

theorem parseRequest_of_valid_line {σ H : Type} (env : Env σ H) (socket : Conn σ)
    (hread : (env.readLine socket.sock).1.1 = true) :
    (Http.parseRequest env socket).1
      = if (env.parseHttpHeaders (env.readLine socket.sock).2).1.1 then
          (true, [], some
            { uri := (Http.parseRequestLine (env.readLine socket.sock).1.2).2.1
              method := (Http.parseRequestLine (env.readLine socket.sock).1.2).1
              httpVersion := (Http.parseRequestLine (env.readLine socket.sock).1.2).2.2
              headers := (env.parseHttpHeaders (env.readLine socket.sock).2).1.2 })
        else (false, "Error parsing HTTP headers".toList, none) := by
  cases h2 : (env.parseHttpHeaders (env.readLine socket.sock).2).1.1 <;>
    simp [Http.parseRequest, Conn.readLine, Conn.parseHttpHeaders, hread, h2]

theorem readyState_step (s t : ReadyState) (h : ReadyState.transition s t = true) :
    s.toNat < t.toNat
      ∨ (s = ReadyState.WebSocket_ReadyState_Closed
          ∧ t = ReadyState.WebSocket_ReadyState_Connecting) := by
  cases s <;> cases t <;> simp [ReadyState.transition, ReadyState.toNat] at h ⊢

theorem readyState_attempt_chain (xs : List ReadyState) (s : ReadyState)
    (hex : ReadyState.isExecution (s :: xs) = true)
    (hnc : ReadyState.WebSocket_ReadyState_Connecting ∉ xs) :
    List.Chain (fun a b => a < b) s.toNat (xs.map ReadyState.toNat) := by
  induction xs generalizing s with
  | nil => exact List.Chain.nil
  | cons x rest ih =>
    simp only [ReadyState.isExecution, Bool.and_eq_true] at hex
    have hx : x ≠ ReadyState.WebSocket_ReadyState_Connecting := fun h => hnc (by simp [h])
    have hrest : ReadyState.WebSocket_ReadyState_Connecting ∉ rest := fun h => hnc (by simp [h])
    rcases readyState_step s x hex.1 with hlt | ⟨_, hc⟩
    · exact List.Chain.cons hlt (ih x hex.2 hrest)
    · exact absurd hc hx

theorem isExecution_drop (before rest : List ReadyState)
    (h : ReadyState.isExecution (before ++ rest) = true) : ReadyState.isExecution rest = true := by
  induction before with
  | nil => simpa using h
  | cons b bs ih =>
    apply ih
    cases hbs : bs ++ rest with
    | nil => rfl
    | cons y ys =>
      rw [List.cons_append, hbs] at h
      simp only [ReadyState.isExecution, Bool.and_eq_true] at h
      exact h.2

/-! ## The claims -/

/-- C1: on a socket where every write succeeds, `Http::sendResponse` returns
true, makes no call other than `writeBytes`, and the strings it writes,
concatenated in call order, are
`"HTTP/1.1 " + decimal(statusCode) + " " + description + "\r\nContent-Length: " +
decimal(payload size) + "\r\n\r\n" + payload`, for every payload, the empty
one included. -/
theorem sendResponse_serialization {σ H : Type} (env : Env σ H) (response : HttpResponse H)
    (socket : Conn σ) (hw : ∀ data s, (env.writeBytes data s).1 = true) :
    (Http.sendResponse env response socket).1 = true
    ∧ ∃ calls : List Event,
        (Http.sendResponse env response socket).2.trace = socket.trace ++ calls
        ∧ (∀ e ∈ calls, ∃ data, e = Event.writeBytes data)
        ∧ (written calls).flatten
            = "HTTP/1.1 ".toList ++ decimalInt response.statusCode ++ " ".toList
              ++ response.description ++ "\r\nContent-Length: ".toList
              ++ decimalNat response.payload.length ++ "\r\n\r\n".toList
              ++ response.payload := by
  refine ⟨by simp [Http.sendResponse, Conn.writeBytes, hw], ?_⟩
  refine ⟨[Event.writeBytes ("HTTP/1.1 ".toList ++ decimalInt response.statusCode ++ " ".toList
              ++ response.description ++ "\r\n".toList),
           Event.writeBytes ("Content-Length: ".toList ++ decimalNat response.payload.length
              ++ "\r\n".toList ++ "\r\n".toList),
           Event.writeBytes response.payload], ?_, ?_, ?_⟩
  · simp [Http.sendResponse, Conn.writeBytes, hw]
  · intro e he
    simp at he
    rcases he with rfl | rfl | rfl <;> exact ⟨_, rfl⟩
  · simp [written]

/-- C1, at the response `{200, "OK", "hi"}` on a socket whose writes all
succeed: the bytes written are `"HTTP/1.1 200 OK\r\nContent-Length: 2\r\n\r\nhi"`;
with an empty payload the header is `Content-Length: 0`. -/
theorem sendResponse_serialization_witness :
    (Http.sendResponse (scriptedEnv true [] true (fun _ => true))
        (HttpResponse.mk 200 "OK".toList none "hi".toList) (Conn.mk 0 [])).1 = true
    ∧ (written (Http.sendResponse (scriptedEnv true [] true (fun _ => true))
        (HttpResponse.mk 200 "OK".toList none "hi".toList) (Conn.mk 0 [])).2.trace).flatten
        = "HTTP/1.1 200 OK\r\nContent-Length: 2\r\n\r\nhi".toList
    ∧ (written (Http.sendResponse (scriptedEnv true [] true (fun _ => true))
        (HttpResponse.mk 200 "OK".toList none "".toList) (Conn.mk 0 [])).2.trace).flatten
        = "HTTP/1.1 200 OK\r\nContent-Length: 0\r\n\r\n".toList :=
  ⟨(sendResponse_serialization (scriptedEnv true [] true (fun _ => true))
      (HttpResponse.mk 200 "OK".toList none "hi".toList) (Conn.mk 0 []) (fun _ _ => rfl)).1,
   by decide, by decide⟩

/-- C2: `Http::sendResponse` issues at most three `writeBytes` calls: the
status line, then the Content-Length header with the blank line, then the
payload. It returns true exactly when the three writes return true; when the
first or the second write returns false it returns false with no later call,
and after two successful writes it returns what the third write returns. -/
theorem sendResponse_write_sequence {σ H : Type} (env : Env σ H) (response : HttpResponse H)
    (socket : Conn σ) :
    let seg1 := "HTTP/1.1 ".toList ++ decimalInt response.statusCode ++ " ".toList
      ++ response.description ++ "\r\n".toList
    let seg2 := "Content-Length: ".toList ++ decimalNat response.payload.length
      ++ "\r\n".toList ++ "\r\n".toList
    let seg3 := response.payload
    let w1 := env.writeBytes seg1 socket.sock
    let w2 := env.writeBytes seg2 w1.2
    let w3 := env.writeBytes seg3 w2.2
    let r := Http.sendResponse env response socket
    (r.1 = true ↔ (w1.1 = true ∧ w2.1 = true ∧ w3.1 = true))
    ∧ (w1.1 = false →
        r = (false, Conn.mk w1.2 (socket.trace ++ [Event.writeBytes seg1])))
    ∧ (w1.1 = true → w2.1 = false →
        r = (false, Conn.mk w2.2
          (socket.trace ++ [Event.writeBytes seg1, Event.writeBytes seg2])))
    ∧ (w1.1 = true → w2.1 = true →
        r = (w3.1, Conn.mk w3.2
          (socket.trace ++ [Event.writeBytes seg1, Event.writeBytes seg2,
            Event.writeBytes seg3])))
    ∧ (∃ calls, r.2.trace = socket.trace ++ calls ∧ calls.length ≤ 3
        ∧ calls <+: [Event.writeBytes seg1, Event.writeBytes seg2, Event.writeBytes seg3]) := by
  intro seg1 seg2 seg3 w1 w2 w3 r
  have hr : r = Http.sendResponse env response socket := rfl
  cases h1 : w1.1 with
  | false =>
    have e : r = (false, Conn.mk w1.2 (socket.trace ++ [Event.writeBytes seg1])) := by
      simp only [hr, Http.sendResponse, Conn.writeBytes]
      simp [seg1, w1] at h1 ⊢
      simp [h1]
    refine ⟨by simp [e], fun _ => e, by simp, by simp, ⟨[Event.writeBytes seg1], ?_, ?_, ?_⟩⟩
    · rw [e]
    · simp
    · exact ⟨[Event.writeBytes seg2, Event.writeBytes seg3], rfl⟩
  | true =>
    cases h2 : w2.1 with
    | false =>
      have e : r = (false, Conn.mk w2.2
          (socket.trace ++ [Event.writeBytes seg1, Event.writeBytes seg2])) := by
        simp only [hr, Http.sendResponse, Conn.writeBytes]
        simp [seg1, seg2, w1, w2] at h1 h2 ⊢
        simp [h1, h2]
      refine ⟨by simp [e], by simp, fun _ _ => e, by simp,
        ⟨[Event.writeBytes seg1, Event.writeBytes seg2], ?_, ?_, ?_⟩⟩
      · rw [e]
      · simp
      · exact ⟨[Event.writeBytes seg3], rfl⟩
    | true =>
      have e : r = (w3.1, Conn.mk w3.2
          (socket.trace ++ [Event.writeBytes seg1, Event.writeBytes seg2,
            Event.writeBytes seg3])) := by
        simp only [hr, Http.sendResponse, Conn.writeBytes]
        simp [seg1, seg2, seg3, w1, w2, w3] at h1 h2 ⊢
        simp [h1, h2]
      refine ⟨by simp [e], by simp, by simp, fun _ _ => e,
        ⟨[Event.writeBytes seg1, Event.writeBytes seg2, Event.writeBytes seg3], ?_, ?_, ?_⟩⟩
      · rw [e]
      · simp
      · exact List.prefix_refl _

/-- C2, on a socket whose second write fails: the status line and the header
are written, the payload is not, and the result is false. -/
theorem sendResponse_write_sequence_witness :
    Http.sendResponse (scriptedEnv true [] true (fun k => decide (k ≠ 1)))
        (HttpResponse.mk 200 "OK".toList none "hi".toList) (Conn.mk 0 [])
      = (false, Conn.mk 2 [Event.writeBytes "HTTP/1.1 200 OK\r\n".toList,
          Event.writeBytes "Content-Length: 2\r\n\r\n".toList]) :=
  ((sendResponse_write_sequence (scriptedEnv true [] true (fun k => decide (k ≠ 1)))
      (HttpResponse.mk 200 "OK".toList none "hi".toList) (Conn.mk 0 [])).2.2.1
    (by decide) (by decide)).trans (by decide)

/-- C3: for `m`, `u`, `v` without a space character, the request line
`m + " " + u + " " + v + "\r\n"` parses to `(trim m, trim u, trim v)`, and to
`(m, u, v)` itself when they hold no carriage return or line feed either. -/
theorem parseRequestLine_three_tokens (m u v : Str)
    (hm : ' ' ∉ m) (hu : ' ' ∉ u) (hv : ' ' ∉ v) :
    Http.parseRequestLine (m ++ " ".toList ++ u ++ " ".toList ++ v ++ "\r\n".toList)
      = (Http.trim m, Http.trim u, Http.trim v)
    ∧ ((∀ c ∈ m ++ u ++ v, c ≠ '\r' ∧ c ≠ '\n') →
        Http.parseRequestLine (m ++ " ".toList ++ u ++ " ".toList ++ v ++ "\r\n".toList)
          = (m, u, v)) := by
  have hline : m ++ " ".toList ++ u ++ " ".toList ++ v ++ "\r\n".toList
      = m ++ ' ' :: (u ++ ' ' :: (v ++ ['\r', '\n'])) := by simp
  have hlast : ' ' ∉ v ++ ['\r', '\n'] := by
    intro h
    rcases List.mem_append.1 h with h | h
    · exact hv h
    · revert h; decide
  have htok : splitOnSpace (m ++ ' ' :: (u ++ ' ' :: (v ++ ['\r', '\n'])))
      = [m, u, v ++ ['\r', '\n']] := by
    rw [splitOnSpace_append_space m _ hm, splitOnSpace_append_space u _ hu,
      splitOnSpace_no_space _ hlast (by simp)]
  have htail : Http.trim (v ++ ['\r', '\n']) = Http.trim v := by
    rw [trim_append]
    have : Http.trim ['\r', '\n'] = [] := by decide
    rw [this, List.append_nil]
  have hmain : Http.parseRequestLine (m ++ " ".toList ++ u ++ " ".toList ++ v ++ "\r\n".toList)
      = (Http.trim m, Http.trim u, Http.trim v) := by
    rw [hline, parseRequestLine_eq, htok]
    simp [htail]
  refine ⟨hmain, fun hclean => ?_⟩
  have hc : ∀ w : Str, (∀ c ∈ w, c ∈ m ++ u ++ v) → ' ' ∉ w → Http.trim w = w := by
    intro w hw hsp
    apply trim_of_clean
    intro c hcw
    exact ⟨fun h => hsp (h ▸ hcw), hclean c (hw c hcw)⟩
  rw [hmain, hc m (by intro c h; simp [h]) hm, hc u (by intro c h; simp [h]) hu,
    hc v (by intro c h; simp [h]) hv]

/-- C3, at the request line `"GET /chat HTTP/1.1\r\n"`. -/
theorem parseRequestLine_three_tokens_witness :
    Http.parseRequestLine "GET /chat HTTP/1.1\r\n".toList
      = ("GET".toList, "/chat".toList, "HTTP/1.1".toList) :=
  (parseRequestLine_three_tokens "GET".toList "/chat".toList "HTTP/1.1".toList
    (by decide) (by decide) (by decide)).2 (by decide)

/-- C4: `Http::trim` removes every space, carriage return and line feed of
its argument, wherever it stands, and keeps every other character (tabs
included) in its relative order: it is the filter that keeps the characters
outside `{' ', '\r', '\n'}`. For instance `" G E T \r\n"` gives `"GET"`, and
a tab is kept. -/
theorem trim_removes_exactly_space_cr_lf (s : Str) :
    Http.trim s = s.filter (fun c => decide (c ∉ [' ', '\r', '\n']))
    ∧ Http.trim " G E T \r\n".toList = "GET".toList
    ∧ Http.trim "\tG\tE T\n".toList = "\tG\tET".toList := by
  refine ⟨?_, by decide, by decide⟩
  rw [trim_eq_filter]
  congr 1
  funext c
  simp

/-- C5: when the first `readLine` on the socket is not ok, whatever text comes
with it, `Http::parseRequest` returns
`(false, "Error reading HTTP request line", unset)`; that `readLine` is the
only call it has made: the header parser is not run and nothing more is
read. -/
theorem parseRequest_read_failure {σ H : Type} (env : Env σ H) (socket : Conn σ)
    (hread : (env.readLine socket.sock).1.1 = false) :
    Http.parseRequest env socket
      = ((false, "Error reading HTTP request line".toList, none),
         Conn.mk (env.readLine socket.sock).2 (socket.trace ++ [Event.readLine])) :=
  parseRequest_of_invalid_line env socket hread

/-- C5, on a socket whose read fails after delivering the partial text
`"GET /ch"`. -/
theorem parseRequest_read_failure_witness :
    Http.parseRequest (scriptedEnv false "GET /ch".toList true (fun _ => true)) (Conn.mk 0 [])
      = ((false, "Error reading HTTP request line".toList, none),
         Conn.mk 0 [Event.readLine]) :=
  parseRequest_read_failure (scriptedEnv false "GET /ch".toList true (fun _ => true))
    (Conn.mk 0 []) (by decide)

/-- C6: the request returned by `Http::parseRequest` is set exactly when the
returned flag is true; the flag is true exactly when the request line was
read and the header parser, run on the socket left by that read, succeeded;
on failure the request is unset and the message is not empty; on success the
message is empty. -/
theorem parseRequest_request_set_iff_ok {σ H : Type} (env : Env σ H) (socket : Conn σ) :
    ((Http.parseRequest env socket).1.2.2.isSome = true
        ↔ (Http.parseRequest env socket).1.1 = true)
    ∧ ((Http.parseRequest env socket).1.1 = true
        ↔ ((env.readLine socket.sock).1.1 = true
            ∧ (env.parseHttpHeaders (env.readLine socket.sock).2).1.1 = true))
    ∧ ((Http.parseRequest env socket).1.1 = false →
        (Http.parseRequest env socket).1.2.2 = none
          ∧ (Http.parseRequest env socket).1.2.1 ≠ [])
    ∧ ((Http.parseRequest env socket).1.1 = true →
        (Http.parseRequest env socket).1.2.1 = []) := by
  cases h1 : (env.readLine socket.sock).1.1 with
  | false =>
    rw [parseRequest_of_invalid_line env socket h1]
    refine ⟨by simp, by simp, fun _ => ⟨rfl, ?_⟩, by simp⟩
    show "Error reading HTTP request line".toList ≠ []
    decide
  | true =>
    cases h2 : (env.parseHttpHeaders (env.readLine socket.sock).2).1.1 with
    | false =>
      have e : (Http.parseRequest env socket).1
          = (false, "Error parsing HTTP headers".toList, none) := by
        simp [Http.parseRequest, Conn.readLine, Conn.parseHttpHeaders, h1, h2]
      rw [e]
      refine ⟨by simp, by simp, fun _ => ⟨rfl, ?_⟩, by simp⟩
      show "Error parsing HTTP headers".toList ≠ []
      decide
    | true =>
      have e : (Http.parseRequest env socket).1.1 = true
          ∧ (Http.parseRequest env socket).1.2.1 = []
          ∧ (Http.parseRequest env socket).1.2.2.isSome = true := by
        simp [Http.parseRequest, Conn.readLine, Conn.parseHttpHeaders, h1, h2]
      refine ⟨by simp [e.1, e.2.2], by simp [e.1], ?_, fun _ => e.2.1⟩
      intro h
      rw [e.1] at h
      exact absurd h (by decide)

/-- C6, on a socket whose header parse fails and on one where both steps
succeed. -/
theorem parseRequest_request_set_iff_ok_witness :
    ((Http.parseRequest (scriptedEnv true "GET / HTTP/1.1\r\n".toList false (fun _ => true))
        (Conn.mk 0 [])).1.2.2 = none
      ∧ (Http.parseRequest (scriptedEnv true "GET / HTTP/1.1\r\n".toList false (fun _ => true))
        (Conn.mk 0 [])).1.2.1 ≠ [])
    ∧ (Http.parseRequest (scriptedEnv true "GET / HTTP/1.1\r\n".toList true (fun _ => true))
        (Conn.mk 0 [])).1.2.1 = [] :=
  ⟨(parseRequest_request_set_iff_ok
      (scriptedEnv true "GET / HTTP/1.1\r\n".toList false (fun _ => true))
      (Conn.mk 0 [])).2.2.1 (by decide),
   (parseRequest_request_set_iff_ok
      (scriptedEnv true "GET / HTTP/1.1\r\n".toList true (fun _ => true))
      (Conn.mk 0 [])).2.2.2 (by decide)⟩

/-- C7: when `Http::parseRequest` returns ok, with `L` the line it read and
`H` the header map the header parser gave, the request it built has
`method`, `uri`, `httpVersion` equal to the first, second and third component
of `Http::parseRequestLine L`, and `headers = H`. -/
theorem parseRequest_success_fields {σ H : Type} (env : Env σ H) (socket : Conn σ)
    (hok : (Http.parseRequest env socket).1.1 = true) :
    (Http.parseRequest env socket).1.2.2
      = some
        { uri := (Http.parseRequestLine (env.readLine socket.sock).1.2).2.1
          method := (Http.parseRequestLine (env.readLine socket.sock).1.2).1
          httpVersion := (Http.parseRequestLine (env.readLine socket.sock).1.2).2.2
          headers := (env.parseHttpHeaders (env.readLine socket.sock).2).1.2 } := by
  cases h1 : (env.readLine socket.sock).1.1 with
  | false =>
    rw [parseRequest_of_invalid_line env socket h1] at hok
    exact absurd hok (by simp)
  | true =>
    cases h2 : (env.parseHttpHeaders (env.readLine socket.sock).2).1.1 with
    | false =>
      simp [Http.parseRequest, Conn.readLine, Conn.parseHttpHeaders, h1, h2] at hok
    | true =>
      simp [Http.parseRequest, Conn.readLine, Conn.parseHttpHeaders, h1, h2]

/-- C7, at the request line `"GET /chat HTTP/1.1\r\n"`: method `"GET"`, uri
`"/chat"`, httpVersion `"HTTP/1.1"`. -/
theorem parseRequest_success_fields_witness :
    (Http.parseRequest (scriptedEnv true "GET /chat HTTP/1.1\r\n".toList true (fun _ => true))
        (Conn.mk 0 [])).1.2.2
      = some { uri := "/chat".toList, method := "GET".toList,
               httpVersion := "HTTP/1.1".toList, headers := () } :=
  (parseRequest_success_fields
    (scriptedEnv true "GET /chat HTTP/1.1\r\n".toList true (fun _ => true))
    (Conn.mk 0 []) (by decide)).trans (by decide)

/-- C8: when the request line is read, whatever it holds, and the header
parser reports a failure, `Http::parseRequest` returns
`(false, "Error parsing HTTP headers", unset)`. -/
theorem parseRequest_header_failure {σ H : Type} (env : Env σ H) (socket : Conn σ)
    (hread : (env.readLine socket.sock).1.1 = true)
    (hheaders : (env.parseHttpHeaders (env.readLine socket.sock).2).1.1 = false) :
    Http.parseRequest env socket
      = ((false, "Error parsing HTTP headers".toList, none),
         Conn.mk (env.parseHttpHeaders (env.readLine socket.sock).2).2
           (socket.trace ++ [Event.readLine, Event.parseHttpHeaders])) := by
  simp [Http.parseRequest, Conn.readLine, Conn.parseHttpHeaders, hread, hheaders]

/-- C8, on a socket delivering a well-formed request line and then failing
the header parse. -/
theorem parseRequest_header_failure_witness :
    Http.parseRequest (scriptedEnv true "GET /chat HTTP/1.1\r\n".toList false (fun _ => true))
        (Conn.mk 0 [])
      = ((false, "Error parsing HTTP headers".toList, none),
         Conn.mk 0 [Event.readLine, Event.parseHttpHeaders]) :=
  parseRequest_header_failure
    (scriptedEnv true "GET /chat HTTP/1.1\r\n".toList false (fun _ => true))
    (Conn.mk 0 []) (by decide) (by decide)

/-- C9: tokens beyond the third are ignored. For `m`, `u`, `v` without a
space character and any `rest`, the lines `m + " " + u + " " + v + " " + rest`
and `m + " " + u + " " + v` parse to the same triple. -/
theorem parseRequestLine_extra_tokens_ignored (m u v rest : Str)
    (hm : ' ' ∉ m) (hu : ' ' ∉ u) (hv : ' ' ∉ v) :
    Http.parseRequestLine (m ++ " ".toList ++ u ++ " ".toList ++ v ++ " ".toList ++ rest)
      = Http.parseRequestLine (m ++ " ".toList ++ u ++ " ".toList ++ v) := by
  have hl : m ++ " ".toList ++ u ++ " ".toList ++ v ++ " ".toList ++ rest
      = m ++ ' ' :: (u ++ ' ' :: (v ++ ' ' :: rest)) := by simp
  have hr : m ++ " ".toList ++ u ++ " ".toList ++ v = m ++ ' ' :: (u ++ ' ' :: v) := by simp
  rw [hl, hr, parseRequestLine_eq, parseRequestLine_eq,
    splitOnSpace_append_space m _ hm, splitOnSpace_append_space u _ hu,
    splitOnSpace_append_space v _ hv,
    splitOnSpace_append_space m _ hm, splitOnSpace_append_space u _ hu]
  cases v with
  | nil => simp [splitOnSpace]
  | cons c cs => simp [splitOnSpace_no_space (c :: cs) hv (by simp)]

/-- C9, at `"GET /chat HTTP/1.1 extra tokens"`. -/
theorem parseRequestLine_extra_tokens_ignored_witness :
    Http.parseRequestLine "GET /chat HTTP/1.1 extra tokens".toList
      = Http.parseRequestLine "GET /chat HTTP/1.1".toList :=
  parseRequestLine_extra_tokens_ignored "GET".toList "/chat".toList "HTTP/1.1".toList
    "extra tokens".toList (by decide) (by decide) (by decide)

/-- C10: a missing token leaves its field empty. A line without a space
parses to `(trim line, "", "")`, the empty line to `("", "", "")`, and a line
with exactly one space has an empty `httpVersion`. The function returns a
triple on every line: the loop stops by itself, whatever number of iterations
beyond `size + 2` it is allowed. -/
theorem parseRequestLine_missing_tokens (line : Str) :
    (' ' ∉ line → Http.parseRequestLine line = (Http.trim line, [], []))
    ∧ Http.parseRequestLine [] = ([], [], [])
    ∧ (line.count ' ' = 1 → (Http.parseRequestLine line).2.2 = [])
    ∧ (∃ method requestUri httpVersion,
        Http.parseRequestLine line = (method, requestUri, httpVersion))
    ∧ (∀ k, splitLoop (line.length + 2 + k)
          { unread := line, eofbit := false, failbit := false } [] []
        = splitLoop (line.length + 2)
          { unread := line, eofbit := false, failbit := false } [] []) := by
  refine ⟨fun h => ?_, by decide, fun h => ?_, ⟨_, _, _, rfl⟩, fun k => ?_⟩
  · rw [parseRequestLine_eq]
    cases line with
    | nil => simp [splitOnSpace, trim_nil]
    | cons c cs => simp [splitOnSpace_no_space (c :: cs) h (by simp), trim_nil]
  · rw [parseRequestLine_eq]
    have hlen := splitOnSpace_length_le line
    rw [h] at hlen
    have : (splitOnSpace line).getD 2 [] = [] := by
      simp [List.getD, List.getElem?_eq_none hlen]
    show Http.trim ((splitOnSpace line).getD 2 []) = []
    rw [this, trim_nil]
  · rw [splitLoop_eq _ line [] [] (by omega), splitLoop_eq _ line [] [] (Nat.le_refl _)]

/-- C10, at the lines `"GET"` (no space) and `"GET /chat"` (one space). -/
theorem parseRequestLine_missing_tokens_witness :
    Http.parseRequestLine "GET".toList = ("GET".toList, [], [])
    ∧ (Http.parseRequestLine "GET /chat".toList).2.2 = [] :=
  ⟨((parseRequestLine_missing_tokens "GET".toList).1 (by decide)).trans (by decide),
   (parseRequestLine_missing_tokens "GET /chat".toList).2.2.1 (by decide)⟩

/-- C11 (counterexample): the line `"GET  /chat HTTP/1.1"` has four tokens and
the line `"GET \r\n"` has two, yet `requestUri` is empty for both, so the
number of tokens does not decide whether `requestUri` is empty. -/
theorem parseRequestLine_token_count_counterexample :
    ((Http.requestLineTokens "GET  /chat HTTP/1.1".toList).length = 4
      ∧ (Http.parseRequestLine "GET  /chat HTTP/1.1".toList).2.1 = [])
    ∧ ((Http.requestLineTokens "GET \r\n".toList).length = 2
      ∧ (Http.parseRequestLine "GET \r\n".toList).2.1 = [])
    ∧ ¬ ((Http.parseRequestLine "GET  /chat HTTP/1.1".toList).2.1 ≠ []
          ↔ (Http.requestLineTokens "GET  /chat HTTP/1.1".toList).length ≥ 2) := by
  decide

/-- C11 (amended): with `n` the number of tokens the loop of
`Http::parseRequestLine` yields, `method` is non-empty exactly when the first
token exists and holds a character other than `'\r'` and `'\n'`, and likewise
`requestUri` with the second token and `httpVersion` with the third; hence a
non-empty `method`, `requestUri`, `httpVersion` needs `n ≥ 1`, `n ≥ 2`,
`n ≥ 3`, and fewer tokens leave the field empty. -/
theorem parseRequestLine_nonempty_fields (line : Str) :
    ((Http.parseRequestLine line).1 ≠ []
        ↔ ∃ t, (Http.requestLineTokens line)[0]? = some t ∧ ∃ c ∈ t, c ≠ '\r' ∧ c ≠ '\n')
    ∧ ((Http.parseRequestLine line).2.1 ≠ []
        ↔ ∃ t, (Http.requestLineTokens line)[1]? = some t ∧ ∃ c ∈ t, c ≠ '\r' ∧ c ≠ '\n')
    ∧ ((Http.parseRequestLine line).2.2 ≠ []
        ↔ ∃ t, (Http.requestLineTokens line)[2]? = some t ∧ ∃ c ∈ t, c ≠ '\r' ∧ c ≠ '\n')
    ∧ ((Http.parseRequestLine line).1 ≠ [] → (Http.requestLineTokens line).length ≥ 1)
    ∧ ((Http.parseRequestLine line).2.1 ≠ [] → (Http.requestLineTokens line).length ≥ 2)
    ∧ ((Http.parseRequestLine line).2.2 ≠ [] → (Http.requestLineTokens line).length ≥ 3) := by
  rw [parseRequestLine_eq, requestLineTokens_eq]
  have h0 := field_nonempty_iff line 0
  have h1 := field_nonempty_iff line 1
  have h2 := field_nonempty_iff line 2
  refine ⟨h0, h1, h2, fun h => ?_, fun h => ?_, fun h => ?_⟩
  · obtain ⟨t, ht, _⟩ := h0.1 h
    exact getElem?_some_length _ _ t ht
  · obtain ⟨t, ht, _⟩ := h1.1 h
    exact getElem?_some_length _ _ t ht
  · obtain ⟨t, ht, _⟩ := h2.1 h
    exact getElem?_some_length _ _ t ht

/-- C11 (amended), at the line `"GET /chat"`: its `requestUri` is not empty, so it
has at least two tokens. -/
theorem parseRequestLine_nonempty_fields_witness :
    (Http.requestLineTokens "GET /chat".toList).length ≥ 2 :=
  (parseRequestLine_nonempty_fields "GET /chat".toList).2.2.2.2.1 (by decide)

/-- C12 (counterexample): the empty request line parses to an empty method,
uri and version, and with a valid header block `Http::parseRequest` returns
ok with a request built from these empty strings; the same happens for the
line `"GET"`. -/
theorem parseRequest_malformed_line_counterexample :
    Http.parseRequestLine [] = ([], [], [])
    ∧ (Http.parseRequest (scriptedEnv true [] true (fun _ => true)) (Conn.mk 0 [])).1
        = (true, [], some { uri := [], method := [], httpVersion := [], headers := () })
    ∧ (Http.parseRequest (scriptedEnv true "GET".toList true (fun _ => true)) (Conn.mk 0 [])).1
        = (true, [], some { uri := [], method := "GET".toList, httpVersion := [],
                            headers := () }) := by
  decide

/-- C12 (amended): `Http::parseRequest` does not validate the request line.
When the request line is read, the returned flag is the verdict of the header
parser, whatever the line holds: a request is built exactly when the headers
are valid, also from an empty method, uri or version. -/
theorem parseRequest_no_line_validation {σ H : Type} (env : Env σ H) (socket : Conn σ)
    (hread : (env.readLine socket.sock).1.1 = true) :
    (Http.parseRequest env socket).1.1 = (env.parseHttpHeaders (env.readLine socket.sock).2).1.1
    ∧ (Http.parseRequest env socket).1.2.2.isSome
        = (env.parseHttpHeaders (env.readLine socket.sock).2).1.1 := by
  rw [parseRequest_of_valid_line env socket hread]
  cases (env.parseHttpHeaders (env.readLine socket.sock).2).1.1 <;> simp

/-- C12 (amended), on a socket delivering the empty line and a valid header block. -/
theorem parseRequest_no_line_validation_witness :
    (Http.parseRequest (scriptedEnv true [] true (fun _ => true)) (Conn.mk 0 [])).1.1 = true
    ∧ (Http.parseRequest (scriptedEnv true [] true (fun _ => true))
        (Conn.mk 0 [])).1.2.2.isSome = true :=
  parseRequest_no_line_validation (scriptedEnv true [] true (fun _ => true)) (Conn.mk 0 [])
    (by decide)

/-- C13: the `headers` field of the response never reaches the wire. Two
responses with the same status code, description and payload make
`Http::sendResponse` issue the same `writeBytes` calls and return the same
result on the same socket, whatever their `headers` are. -/
theorem sendResponse_ignores_headers {σ H : Type} (env : Env σ H)
    (r1 r2 : HttpResponse H) (socket : Conn σ)
    (hcode : r1.statusCode = r2.statusCode) (hdesc : r1.description = r2.description)
    (hpayload : r1.payload = r2.payload) :
    Http.sendResponse env r1 socket = Http.sendResponse env r2 socket := by
  simp only [Http.sendResponse, hcode, hdesc, hpayload]

/-- C13, for a response without headers and one with headers set. -/
theorem sendResponse_ignores_headers_witness :
    Http.sendResponse (scriptedEnv true [] true (fun _ => true))
        (HttpResponse.mk 200 "OK".toList none "hi".toList) (Conn.mk 0 [])
      = Http.sendResponse (scriptedEnv true [] true (fun _ => true))
        (HttpResponse.mk 200 "OK".toList (some ()) "hi".toList) (Conn.mk 0 []) :=
  sendResponse_ignores_headers (scriptedEnv true [] true (fun _ => true))
    (HttpResponse.mk 200 "OK".toList none "hi".toList)
    (HttpResponse.mk 200 "OK".toList (some ()) "hi".toList) (Conn.mk 0 []) rfl rfl rfl

/-- C14: `WebSocketCloseInfo` built without arguments is `{0, ""}`; built from
a 64-bit unsigned `c` and a reason `r` it has `reason = r` and
`code = c mod 2^16`, a 16-bit value, which is `c` itself exactly when
`c < 65536`; `65536 + 1000` is stored as `1000`. -/
theorem closeInfo_code_truncated (c : Nat) (r : Str) :
    WebSocketCloseInfo.constructDefault = { code := 0, reason := [] }
    ∧ (WebSocketCloseInfo.construct c r).reason = r
    ∧ (WebSocketCloseInfo.construct c r).code = c % 2 ^ 16
    ∧ (WebSocketCloseInfo.construct c r).code < 2 ^ 16
    ∧ ((WebSocketCloseInfo.construct c r).code = c ↔ c < 65536)
    ∧ (WebSocketCloseInfo.construct (65536 + 1000) r).code = 1000 := by
  refine ⟨rfl, rfl, rfl, ?_, ?_, rfl⟩
  · exact Nat.mod_lt _ (by norm_num)
  · show c % 2 ^ 16 = c ↔ c < 65536
    constructor
    · intro h
      have := Nat.mod_lt c (show 0 < 2 ^ 16 by norm_num)
      omega
    · intro h
      exact Nat.mod_eq_of_lt (by simpa using h)

/-- C15: the ready state is always one of `Connecting`, `Open`, `Closing`,
`Closed`, with the distinct values 0, 1, 2, 3; every transition either moves
forward in this order or is the reconnect `Closed → Connecting` that starts a
new attempt, so within one attempt (no return to `Connecting`) the values
strictly increase; and in every execution an `Open` that comes after a
`Closed` has a `Connecting` in between. -/
theorem readyState_lifecycle :
    (∀ s : ReadyState,
        s = ReadyState.WebSocket_ReadyState_Connecting ∨ s = ReadyState.WebSocket_ReadyState_Open
        ∨ s = ReadyState.WebSocket_ReadyState_Closing ∨ s = ReadyState.WebSocket_ReadyState_Closed)
    ∧ (∀ s t : ReadyState, s.toNat = t.toNat → s = t)
    ∧ (∀ s t : ReadyState, ReadyState.transition s t = true →
        s.toNat < t.toNat
        ∨ (s = ReadyState.WebSocket_ReadyState_Closed
            ∧ t = ReadyState.WebSocket_ReadyState_Connecting))
    ∧ (∀ (s : ReadyState) (xs : List ReadyState), ReadyState.isExecution (s :: xs) = true →
        ReadyState.WebSocket_ReadyState_Connecting ∉ xs →
        ((s :: xs).map ReadyState.toNat).Pairwise (fun a b => a < b))
    ∧ (∀ before between after : List ReadyState,
        ReadyState.isExecution
          (before ++ (ReadyState.WebSocket_ReadyState_Closed ::
            (between ++ (ReadyState.WebSocket_ReadyState_Open :: after)))) = true →
        ReadyState.WebSocket_ReadyState_Connecting ∈ between) := by
  refine ⟨fun s => by cases s <;> simp, fun s t => by cases s <;> cases t <;> simp [ReadyState.toNat],
    readyState_step, ?_, ?_⟩
  · intro s xs hex hnc
    have hchain := readyState_attempt_chain xs s hex hnc
    exact (List.chain_iff_pairwise).1 hchain
  · intro before between after hex
    have htail := isExecution_drop before _ hex
    cases between with
    | nil =>
      simp [ReadyState.isExecution, ReadyState.transition] at htail
    | cons b rest =>
      have hstep : ReadyState.transition ReadyState.WebSocket_ReadyState_Closed b = true := by
        simp [ReadyState.isExecution] at htail
        exact htail.1
      cases b <;> simp [ReadyState.transition] at hstep
      simp

/-- C15, on the execution `Connecting, Open, Closing, Closed, Connecting, Open`:
it follows the transitions, and between its `Closed` and the `Open` after it
there is a `Connecting`. -/
theorem readyState_lifecycle_witness :
    ReadyState.isExecution
      [ReadyState.WebSocket_ReadyState_Connecting, ReadyState.WebSocket_ReadyState_Open,
        ReadyState.WebSocket_ReadyState_Closing, ReadyState.WebSocket_ReadyState_Closed,
        ReadyState.WebSocket_ReadyState_Connecting, ReadyState.WebSocket_ReadyState_Open] = true
    ∧ ReadyState.WebSocket_ReadyState_Connecting ∈ [ReadyState.WebSocket_ReadyState_Connecting] :=
  ⟨by decide,
   readyState_lifecycle.2.2.2.2
    [ReadyState.WebSocket_ReadyState_Connecting, ReadyState.WebSocket_ReadyState_Open,
      ReadyState.WebSocket_ReadyState_Closing]
    [ReadyState.WebSocket_ReadyState_Connecting] [] (by decide)⟩

/-- C17: `Http::parseRequestLine` gives the same triple on a line and on the
line with every `'\r'` and `'\n'` taken out, also when this leaves no
character in the last token, as for `"GET \r\n"` and `"GET "`. -/
theorem parseRequestLine_ignores_cr_lf (line : Str) :
    Http.parseRequestLine line
      = Http.parseRequestLine (line.filter (fun c => decide (c ≠ '\r' ∧ c ≠ '\n')))
    ∧ Http.parseRequestLine "GET \r\n".toList = Http.parseRequestLine "GET ".toList := by
  refine ⟨?_, by decide⟩
  show Http.parseRequestLine line = Http.parseRequestLine (stripCRLF line)
  rw [parseRequestLine_eq, parseRequestLine_eq, token_stripCRLF line 0, token_stripCRLF line 1,
    token_stripCRLF line 2]

/-- C18: the method, request uri and version returned by
`Http::parseRequestLine` hold no space, carriage return or line feed, and
each is a subsequence of the characters of the line. -/
theorem parseRequestLine_fields_clean (line : Str) :
    (∀ c ∈ (Http.parseRequestLine line).1, c ≠ ' ' ∧ c ≠ '\r' ∧ c ≠ '\n')
    ∧ (∀ c ∈ (Http.parseRequestLine line).2.1, c ≠ ' ' ∧ c ≠ '\r' ∧ c ≠ '\n')
    ∧ (∀ c ∈ (Http.parseRequestLine line).2.2, c ≠ ' ' ∧ c ≠ '\r' ∧ c ≠ '\n')
    ∧ ((Http.parseRequestLine line).1).Sublist line
    ∧ ((Http.parseRequestLine line).2.1).Sublist line
    ∧ ((Http.parseRequestLine line).2.2).Sublist line := by
  rw [parseRequestLine_eq]
  exact ⟨fun c h => (mem_trim _ c h).2, fun c h => (mem_trim _ c h).2,
    fun c h => (mem_trim _ c h).2,
    (trim_sublist _).trans (token_sublist line 0),
    (trim_sublist _).trans (token_sublist line 1),
    (trim_sublist _).trans (token_sublist line 2)⟩

/-- C19: `Http::trim` is idempotent and distributes over concatenation, and
the three erase-remove passes give its result in each of the six orders. -/
theorem trim_idempotent_and_additive (a b : Str) :
    Http.trim (Http.trim a) = Http.trim a
    ∧ Http.trim (a ++ b) = Http.trim a ++ Http.trim b
    ∧ eraseRemove '\n' (eraseRemove '\r' (eraseRemove ' ' a)) = Http.trim a
    ∧ eraseRemove '\r' (eraseRemove '\n' (eraseRemove ' ' a)) = Http.trim a
    ∧ eraseRemove '\n' (eraseRemove ' ' (eraseRemove '\r' a)) = Http.trim a
    ∧ eraseRemove ' ' (eraseRemove '\n' (eraseRemove '\r' a)) = Http.trim a
    ∧ eraseRemove '\r' (eraseRemove ' ' (eraseRemove '\n' a)) = Http.trim a
    ∧ eraseRemove ' ' (eraseRemove '\r' (eraseRemove '\n' a)) = Http.trim a := by
  have hidem : Http.trim (Http.trim a) = Http.trim a := by
    apply trim_of_clean
    intro c hc
    exact (mem_trim a c hc).2
  refine ⟨hidem, trim_append a b, rfl, ?_, ?_, ?_, ?_, ?_⟩
  all_goals
    rw [trim_eq_filter]
    simp only [eraseRemove_eq_filter, List.filter_filter]
    congr 1
    funext c
    by_cases h1 : c = ' ' <;> by_cases h2 : c = '\r' <;> by_cases h3 : c = '\n' <;>
      simp [h1, h2, h3]

end ix
